import Mathlib

set_option linter.unusedVariables false

/-!
Verification of the ADR (Automatic Domain Randomization) engine in
`gym/adr_envs/adr.py`, as a shallow embedding in Lean 4.

Modelling conventions:
* Python floats are modelled as exact rationals (`ℚ`); the numeric claims
  under scrutiny are about exact arithmetic, not rounding.
* `math.inf` bounds are modelled with `Option ℚ`: `none` stands for an
  infinite (absent) bound, matching the default `val_bound=[-math.inf, math.inf]`.
* `np.mean` is sum divided by length; `np.clip lo hi` is `min (max · lo) hi`.
* Randomness is modelled by passing the underlying draw as an explicit
  argument: a uniform draw `u` comes with the hypothesis that it lies in the
  interval `np.random.uniform` samples from, and `np.random.choice(p=w)` is
  modelled by inverse-CDF selection `pick` applied to a draw in `[0, 1)`.
* Python mutation is explicit state passing: each method returns the updated
  object (and its return value, when the source returns one).
* Python dynamic errors (TypeError, AttributeError, NameError) are modelled
  with `Except PyError`.
-/

/-- Dynamic errors the Python source can raise in the modelled fragments. -/
inductive PyError where
  | attributeError
  | typeError
  | nameError
deriving DecidableEq, Repr

/-- Python `np.clip(x, lo, hi)` = `min(max(x, lo), hi)`, with `none` standing for an
infinite bound (`-math.inf` / `math.inf`), against which clipping is a no-op. -/
def clip (x : ℚ) (lo hi : Option ℚ) : ℚ :=
  let y := match lo with
    | none => x
    | some a => max x a
  match hi with
  | none => y
  | some b => min y b

/-- Source class `ADRParam` (adr.py:50-104): a single ADR parameter.  Fields mirror the
attributes set in `__init__` (adr.py:55-63). -/
structure ADRParam where
  value : ℚ
  val_bound : Option ℚ × Option ℚ
  delta : ℚ
  pq_size : ℕ
  pq : List ℚ
  boundary_sample_weight : ℚ
  boundary_sample_flag : Bool
  name : String
deriving DecidableEq, Repr

namespace ADRParam

/-- Source `ADRParam.__init__` (adr.py:55-63) with every argument explicit; the
Python defaults are `val_bound=[-inf, inf]`, `delta=0.02`, `pq_size=240`,
`boundary_sample_weight=1`, `name=""`.  `pq` starts empty and
`boundary_sample_flag` starts `False`. -/
def init (value : ℚ) (val_bound : Option ℚ × Option ℚ) (delta : ℚ)
    (pq_size : ℕ) (boundary_sample_weight : ℚ) (name : String) : ADRParam :=
  { value := value
    val_bound := val_bound
    delta := delta
    pq_size := pq_size
    pq := []
    boundary_sample_weight := boundary_sample_weight
    boundary_sample_flag := false
    name := name }

/-- Source `ADRParam.fixed_boundary` (adr.py:65-75): fixed parameter factory; the
unspecified arguments take the `__init__` defaults (`val_bound=[-inf, inf]`,
`name=""`). -/
def fixed_boundary (val : ℚ) : ADRParam :=
  init val (none, none) 0 0 0 ""

/-- Source `ADRParam.update` (adr.py:79-89): append `p_val` to `pq`; if
`len(pq) >= pq_size` (tested after the append), take `np.mean(pq)`, reset
`pq = []`, move `value` by `delta` according to the strict threshold
comparisons, and `np.clip` `value` into `val_bound`. -/
def update (p : ADRParam) (p_val : ℚ) (p_thresh : ℚ × ℚ) : ADRParam :=
  let pq := p.pq ++ [p_val]
  if p.pq_size ≤ pq.length then
    let pq_avg := pq.sum / (pq.length : ℚ)
    let value :=
      if pq_avg < p_thresh.1 then p.value - p.delta
      else if p_thresh.2 < pq_avg then p.value + p.delta
      else p.value
    { p with pq := [], value := clip value p.val_bound.1 p.val_bound.2 }
  else
    { p with pq := pq }

/-- Source `ADRParam.get_boundary_sample_flag` (adr.py:91-92). -/
def get_boundary_sample_flag (p : ADRParam) : Bool :=
  p.boundary_sample_flag

/-- Source `ADRParam.set_boundary_sample_flag` (adr.py:94-95). -/
def set_boundary_sample_flag (p : ADRParam) (flag_val : Bool) : ADRParam :=
  { p with boundary_sample_flag := flag_val }

/-- Source `ADRParam.get_boundary_sample_weight` (adr.py:97-98). -/
def get_boundary_sample_weight (p : ADRParam) : ℚ :=
  p.boundary_sample_weight

/-- Source `ADRParam.get_value` (adr.py:103-104). -/
def get_value (p : ADRParam) : ℚ :=
  p.value

/-- Runs a sequence of `update` calls, each with its own performance value and
thresholds (the engine always passes the same `p_thresh`, but the parameter
does not depend on that). -/
def updates (p : ADRParam) (l : List (ℚ × (ℚ × ℚ))) : ADRParam :=
  l.foldl (fun q x => q.update x.1 x.2) p

end ADRParam

/-- Tests that `x` lies inside the (possibly infinite) closed interval `[lo, hi]`. -/
def memB (lo hi : Option ℚ) (x : ℚ) : Bool :=
  (match lo with
    | none => true
    | some a => decide (a ≤ x)) &&
  (match hi with
    | none => true
    | some b => decide (x ≤ b))

/-- Tests that `value` lies inside the (possibly infinite) closed interval `val_bound`. -/
def ADRParam.inBounds (p : ADRParam) : Bool :=
  memB p.val_bound.1 p.val_bound.2 p.value

/-- Specification-side restatement of the claimed update rule, following the
spec's words: each call appends `performance_value` to the queue; when after
the append the queue holds exactly `queue_capacity` entries, the arithmetic
mean of the queued values is computed, the queue is reset to empty, `value`
is decreased by `delta` if the mean is strictly below the low threshold,
increased by `delta` if strictly above the high threshold, otherwise left
unchanged, and then clamped into `[bound.low, bound.high]`. -/
def updateSpec (p : ADRParam) (v : ℚ) (t : ℚ × ℚ) : ADRParam :=
  let q := p.pq ++ [v]
  if q.length = p.pq_size then
    let m := q.sum / (q.length : ℚ)
    let value :=
      if m < t.1 then p.value - p.delta
      else if t.2 < m then p.value + p.delta
      else p.value
    { p with pq := [], value := clip value p.val_bound.1 p.val_bound.2 }
  else
    { p with pq := q }

/-- Concrete parameter for the spec's worked example: `value = 0`, unbounded,
`delta = 0.02 = 1/50`, `queue_capacity = 3`, empty queue. -/
def pqThree : ADRParam := ADRParam.init 0 (none, none) (1/50) 3 1 ""

/-- C1: for every parameter with `queue_capacity ≥ 1` (and a queue that has
not yet reached capacity, as maintained by `update` itself), `update` behaves
exactly as specified: append; on reaching capacity, mean / reset / threshold
step / clamp.  In particular with `queue_capacity = 3`, thresholds `(0, 10)`,
`delta = 0.02`, feeding `[20, 20, 20]` raises `value` by exactly `1/50` and
empties the queue, while feeding `[20, 20]` leaves `value` unchanged. -/
theorem update_matches_queue_spec :
    (∀ (p : ADRParam) (v : ℚ) (t : ℚ × ℚ),
        1 ≤ p.pq_size → p.pq.length < p.pq_size → p.update v t = updateSpec p v t)
    ∧ ADRParam.updates pqThree [(20, (0, 10)), (20, (0, 10)), (20, (0, 10))]
        = { pqThree with value := pqThree.value + 1/50, pq := [] }
    ∧ ADRParam.updates pqThree [(20, (0, 10)), (20, (0, 10))]
        = { pqThree with pq := [20, 20] } := by
  refine ⟨fun p v t h1 h2 => ?_, ?_, ?_⟩
  · simp only [ADRParam.update, updateSpec, List.length_append, List.length_cons,
      List.length_nil, Nat.zero_add]
    split_ifs <;> first | rfl | omega
  · norm_num [ADRParam.updates, ADRParam.update, ADRParam.init, pqThree, clip]
  · norm_num [ADRParam.updates, ADRParam.update, ADRParam.init, pqThree, clip]

/-- Witness for C1: the hypotheses hold at `pqThree` with its queue
pre-loaded to `[20, 20]`, and the refinement instance follows. -/
theorem update_matches_queue_spec_w :
    { pqThree with pq := [20, 20] }.update 20 (0, 10)
      = updateSpec { pqThree with pq := [20, 20] } 20 (0, 10) :=
  update_matches_queue_spec.1 { pqThree with pq := [20, 20] } 20 (0, 10)
    (by norm_num [pqThree, ADRParam.init]) (by norm_num [pqThree, ADRParam.init])

/-- Clipping any value into an interval that contains some point lands inside
the interval. -/
theorem memB_clip (x y : ℚ) (lo hi : Option ℚ) (h : memB lo hi x = true) :
    memB lo hi (clip y lo hi) = true := by
  cases lo with
  | none =>
    cases hi with
    | none => simp [memB, clip]
    | some b => simp [memB, clip, min_le_right]
  | some a =>
    cases hi with
    | none => simp [memB, clip, le_max_right]
    | some b =>
      simp only [memB, clip, Bool.and_eq_true, decide_eq_true_eq] at h ⊢
      exact ⟨le_min (le_max_right y a) (le_trans h.1 h.2), min_le_right _ b⟩

/-- One `update` call keeps an in-bounds value in bounds and does not touch
the bounds themselves. -/
theorem update_inBounds (p : ADRParam) (v : ℚ) (t : ℚ × ℚ)
    (h : p.inBounds = true) :
    (p.update v t).inBounds = true ∧ (p.update v t).val_bound = p.val_bound := by
  by_cases hc : p.pq_size ≤ (p.pq ++ [v]).length <;>
    simp only [ADRParam.update, if_pos, if_neg, hc, if_true, if_false]
  · exact ⟨memB_clip p.value _ p.val_bound.1 p.val_bound.2 h, trivial⟩
  · exact ⟨h, trivial⟩

/-- C2: for every parameter whose value starts inside its bounds, no
sequence of `update` calls (with arbitrary performance values and thresholds)
ever takes the value outside `[bound.low, bound.high]`; the bounds themselves
never change. -/
theorem value_never_leaves_bounds (p : ADRParam) (l : List (ℚ × (ℚ × ℚ)))
    (h : p.inBounds = true) :
    (ADRParam.updates p l).inBounds = true
      ∧ (ADRParam.updates p l).val_bound = p.val_bound := by
  induction l generalizing p with
  | nil => exact ⟨h, rfl⟩
  | cons x xs ih =>
    have step := update_inBounds p x.1 x.2 h
    have tail := ih (p.update x.1 x.2) step.1
    exact ⟨tail.1, tail.2.trans step.2⟩

/-- Concrete bounded parameter: `value = 0` inside `[-1, 1]`, `delta = 1`,
`queue_capacity = 1`, so a single high performance value pushes `value` to
the clamp. -/
def pBounded : ADRParam := ADRParam.init 0 (some (-1), some 1) 1 1 1 ""

/-- Witness for C2: `pBounded` starts in bounds and stays in bounds after an
update that would overshoot without clamping. -/
theorem value_never_leaves_bounds_w :
    (ADRParam.updates pBounded [(20, (0, 10))]).inBounds = true
      ∧ (ADRParam.updates pBounded [(20, (0, 10))]).val_bound = pBounded.val_bound :=
  value_never_leaves_bounds pBounded [(20, (0, 10))]
    (by norm_num [ADRParam.inBounds, memB, pBounded, ADRParam.init])

/-- Parameter with `queue_capacity = 0` but a nonzero `delta = 1`; it
exercises the `pq_size = 0` corner of `update`. -/
def pZeroCap : ADRParam := ADRParam.init 0 (none, none) 1 0 1 ""

/-- C4 counterexample: with `queue_capacity = 0` the very first `update`
call already enters the mean/compare/clamp branch, because the length check
`len(pq) >= pq_size` (adr.py:81) is made after the append and `len >= 0`
always holds: the queue comes back empty (not `[20]`) and `value` moves by
`delta`.  This refutes "update only appends to the queue and never enters the
mean/compare/clamp branch". -/
theorem pq_zero_counterexample :
    (pZeroCap.update 20 (0, 10)).value = 1 ∧ (pZeroCap.update 20 (0, 10)).pq = []
      ∧ pZeroCap.update 20 (0, 10) ≠ { pZeroCap with pq := [20] } := by
  refine ⟨?_, ?_, ?_⟩ <;>
    norm_num [ADRParam.update, pZeroCap, ADRParam.init, clip, ADRParam.mk.injEq]

/-- C4 amended: with `queue_capacity = 0` every `update` call triggers the
threshold decision immediately: the queue is reset to empty on each call, and
`value` is stepped by `delta` according to the mean of the just-appended queue
and clamped.  (The queue still never accumulates entries — it is cleared each
call — but the decision branch runs every time; parameters stay frozen only
when `delta = 0` with unrestricted bounds, as in `fixed_boundary`.) -/
theorem update_pq_size_zero (p : ADRParam) (v : ℚ) (t : ℚ × ℚ)
    (h : p.pq_size = 0) :
    p.update v t =
      { p with
        pq := [],
        value := clip
          (if (p.pq ++ [v]).sum / ((p.pq ++ [v]).length : ℚ) < t.1 then
            p.value - p.delta
           else if t.2 < (p.pq ++ [v]).sum / ((p.pq ++ [v]).length : ℚ) then
            p.value + p.delta
           else p.value)
          p.val_bound.1 p.val_bound.2 } := by
  simp only [ADRParam.update, h, Nat.zero_le, if_true]

/-- Witness for the amended C4 at the concrete parameter `pZeroCap`. -/
theorem update_pq_size_zero_w :
    pZeroCap.update 5 (0, 10) =
      { pZeroCap with
        pq := [],
        value := clip
          (if (pZeroCap.pq ++ [5]).sum / ((pZeroCap.pq ++ [5]).length : ℚ) < 0 then
            pZeroCap.value - pZeroCap.delta
           else if 10 < (pZeroCap.pq ++ [5]).sum / ((pZeroCap.pq ++ [5]).length : ℚ) then
            pZeroCap.value + pZeroCap.delta
           else pZeroCap.value)
          pZeroCap.val_bound.1 pZeroCap.val_bound.2 } :=
  update_pq_size_zero pZeroCap 5 (0, 10) rfl

/-- A parameter with `delta = 0` and unrestricted bounds never changes its
value, delta or bounds under `update` (whatever `pq_size` is). -/
theorem update_frozen (p : ADRParam) (v : ℚ) (t : ℚ × ℚ)
    (hd : p.delta = 0) (hb : p.val_bound = (none, none)) :
    (p.update v t).value = p.value ∧ (p.update v t).delta = 0
      ∧ (p.update v t).val_bound = (none, none) := by
  simp only [ADRParam.update, hd, hb, sub_zero, add_zero, ite_self]
  split <;> simp [clip, hd, hb]

/-- C5: a parameter built by `fixed_boundary` (`delta = 0`,
`queue_capacity = 0`, `weight = 0`, unrestricted bounds) keeps its value
through any sequence of `update` calls with any performance values and any
thresholds. -/
theorem fixed_boundary_never_moves (val : ℚ) (l : List (ℚ × (ℚ × ℚ))) :
    (ADRParam.updates (ADRParam.fixed_boundary val) l).value = val := by
  suffices h : ∀ p : ADRParam, p.value = val → p.delta = 0 →
      p.val_bound = (none, none) → (ADRParam.updates p l).value = val by
    exact h _ rfl rfl rfl
  induction l with
  | nil => exact fun p h1 _ _ => h1
  | cons x xs ih =>
    intro p h1 h2 h3
    have step := update_frozen p x.1 x.2 h2 h3
    exact ih (p.update x.1 x.2) (step.1.trans h1) step.2.1 step.2.2

/-- Source class `ADRUniform` (adr.py:136-159): a uniform distribution over two
parameters.  The Python object also stores `parameters = [phi_l, phi_h]`,
which permanently aliases the two fields; it is represented by
`get_parameters`. -/
structure ADRUniform where
  phi_l : ADRParam
  phi_h : ADRParam
  last_sample : Option ℚ
  name : String
deriving DecidableEq, Repr

namespace ADRUniform

/-- Source `ADRUniform.update_boundary_names` (adr.py:149-151). -/
def update_boundary_names (d : ADRUniform) : ADRUniform :=
  { d with phi_l := { d.phi_l with name := d.name ++ "_l" },
           phi_h := { d.phi_h with name := d.name ++ "_r" } }

/-- Source `ADRUniform.__init__` (adr.py:141-147): `last_sample` starts as `None`
(set in `ADRDist.__init__`), then the boundary parameter names are derived
from the distribution name. -/
def init (phi_l phi_h : ADRParam) (name : String) : ADRUniform :=
  update_boundary_names
    { phi_l := phi_l, phi_h := phi_h, last_sample := none, name := name }

/-- Source `ADRDist.get_parameters` for a uniform: the list `[phi_l, phi_h]`. -/
def get_parameters (d : ADRUniform) : List ADRParam :=
  [d.phi_l, d.phi_h]

/-- Source `ADRUniform.episode_sample` (adr.py:153-159), with the uniform draw `u`
(the value produced by `np.random.uniform(phi_l.value, phi_h.value)`) passed
explicitly.  The `for param in self.parameters` loop is unrolled over
`[phi_l, phi_h]`.  The pinned-boundary assignment to `last_sample` is kept
exactly as in the source even though the final unconditional assignment
overwrites it before the return. -/
def episode_sample (d : ADRUniform) (u : ℚ) : ADRUniform × ℚ :=
  let s1 :=
    if d.phi_l.get_boundary_sample_flag then
      { d with phi_l := d.phi_l.set_boundary_sample_flag false,
               last_sample := some d.phi_l.get_value }
    else d
  let s2 :=
    if s1.phi_h.get_boundary_sample_flag then
      { s1 with phi_h := s1.phi_h.set_boundary_sample_flag false,
                last_sample := some s1.phi_h.get_value }
    else s1
  ({ s2 with last_sample := some u }, u)

end ADRUniform

/-- C3: for a uniform distribution with `phi_l.value ≤ phi_h.value` and a
uniform draw `u` from `[phi_l.value, phi_h.value]`, `episode_sample` returns a
value inside `[phi_l.value, phi_h.value]`; both owned parameters come back
with a cleared boundary-sample flag; and the `last_sample` finally stored
(and the returned value) is the fresh draw `u`, i.e. any pinned boundary value
written to `last_sample` in step 1 is overwritten before the return. -/
theorem uniform_episode_sample_ok (d : ADRUniform) (u : ℚ)
    (_hlh : d.phi_l.value ≤ d.phi_h.value)
    (hlo : d.phi_l.value ≤ u) (hhi : u ≤ d.phi_h.value) :
    (d.phi_l.value ≤ (d.episode_sample u).2
        ∧ (d.episode_sample u).2 ≤ d.phi_h.value)
      ∧ (d.episode_sample u).1.phi_l.boundary_sample_flag = false
      ∧ (d.episode_sample u).1.phi_h.boundary_sample_flag = false
      ∧ (d.episode_sample u).1.last_sample = some u
      ∧ (d.episode_sample u).2 = u := by
  cases hf1 : d.phi_l.boundary_sample_flag <;>
    cases hf2 : d.phi_h.boundary_sample_flag <;>
      simp [ADRUniform.episode_sample, ADRParam.get_boundary_sample_flag,
        ADRParam.set_boundary_sample_flag, ADRParam.get_value, hf1, hf2, hlo, hhi]

/-- Concrete uniform over `[0, 10]`, with both boundary flags set, as after a
boundary sample pinned one of them. -/
def uPinned : ADRUniform :=
  ADRUniform.init
    { ADRParam.init 0 (none, none) (1/50) 240 1 "" with boundary_sample_flag := true }
    { ADRParam.init 10 (none, none) (1/50) 240 1 "" with boundary_sample_flag := true }
    "joint"

/-- Witness for C3 at `uPinned` with the draw `u = 5`. -/
theorem uniform_episode_sample_ok_w :
    (uPinned.phi_l.value ≤ (uPinned.episode_sample 5).2
        ∧ (uPinned.episode_sample 5).2 ≤ uPinned.phi_h.value)
      ∧ (uPinned.episode_sample 5).1.phi_l.boundary_sample_flag = false
      ∧ (uPinned.episode_sample 5).1.phi_h.boundary_sample_flag = false
      ∧ (uPinned.episode_sample 5).1.last_sample = some 5
      ∧ (uPinned.episode_sample 5).2 = 5 :=
  uniform_episode_sample_ok uPinned 5
    (by norm_num [uPinned, ADRUniform.init, ADRUniform.update_boundary_names,
      ADRParam.init])
    (by norm_num [uPinned, ADRUniform.init, ADRUniform.update_boundary_names,
      ADRParam.init])
    (by norm_num [uPinned, ADRUniform.init, ADRUniform.update_boundary_names,
      ADRParam.init])

/-- Inverse-CDF index selection underlying `np.random.choice(n, p=w)`
(adr.py:374): given the unnormalized weights `ws` and a draw `v` in
`[0, sum ws)` (that is, `u * sum ws` for a uniform draw `u` in `[0, 1)`),
return the first index whose cumulative weight strictly exceeds `v`. -/
def pick : List ℚ → ℚ → ℕ
  | [], _ => 0
  | w :: rest, v => if v < w then 0 else pick rest (v - w) + 1

/-- Summing a non-negative weight function over a list is non-negative. -/
theorem sum_map_nonneg {α : Type} (f : α → ℚ) (l : List α)
    (hnn : ∀ x ∈ l, 0 ≤ f x) : 0 ≤ (l.map f).sum := by
  induction l with
  | nil => simp
  | cons x rest ih =>
    rw [List.map_cons, List.sum_cons]
    have hx := hnn x (List.mem_cons_self x rest)
    have hr := ih fun z hz => hnn z (List.mem_cons_of_mem x hz)
    linarith

/-- Summing a non-negative weight function with at least one strictly positive
value is strictly positive. -/
theorem sum_map_pos {α : Type} (f : α → ℚ) (l : List α)
    (hnn : ∀ x ∈ l, 0 ≤ f x) (hex : ∃ x ∈ l, 0 < f x) :
    0 < (l.map f).sum := by
  induction l with
  | nil => simp at hex
  | cons x rest ih =>
    rw [List.map_cons, List.sum_cons]
    obtain ⟨y, hy, hypos⟩ := hex
    rcases List.mem_cons.mp hy with rfl | hy
    · have hr := sum_map_nonneg f rest fun z hz => hnn z (List.mem_cons_of_mem y hz)
      linarith
    · have hr := ih (fun z hz => hnn z (List.mem_cons_of_mem x hz)) ⟨y, hy, hypos⟩
      have hx := hnn x (List.mem_cons_self x rest)
      linarith

/-- Key property of the weighted choice: for a draw inside `[0, sum)`, the
selected index is in range and its weight is strictly positive — indices of
weight `0` are never selected. -/
theorem pick_map_pos {α : Type} (f : α → ℚ) :
    ∀ (l : List α) (v : ℚ), (∀ x ∈ l, 0 ≤ f x) → 0 ≤ v → v < (l.map f).sum →
      ∃ p, l[pick (l.map f) v]? = some p ∧ 0 < f p := by
  intro l
  induction l with
  | nil =>
    intro v _ h0 h1
    rw [List.map_nil, List.sum_nil] at h1
    exact absurd h1 (not_lt.mpr h0)
  | cons x rest ih =>
    intro v hnn h0 h1
    rw [List.map_cons, List.sum_cons] at h1
    simp only [List.map_cons, pick]
    by_cases hv : v < f x
    · rw [if_pos hv]
      exact ⟨x, by simp, lt_of_le_of_lt h0 hv⟩
    · rw [if_neg hv]
      push_neg at hv
      obtain ⟨p, hp, hppos⟩ := ih (v - f x)
        (fun z hz => hnn z (List.mem_cons_of_mem x hz))
        (by linarith) (by linarith)
      exact ⟨p, by rw [List.getElem?_cons_succ]; exact hp, hppos⟩

/-- Python `d[k] = v` on the registry dict: replace the value if the key is
already present (keeping its position), otherwise append the new entry. -/
def dictInsert (d : List (String × ADRUniform)) (k : String) (v : ADRUniform) :
    List (String × ADRUniform) :=
  if d.any fun kv => kv.1 == k then
    d.map fun kv => if kv.1 = k then (k, v) else kv
  else d ++ [(k, v)]

/-- Loop of `ADR.construct_dict` (adr.py:351-361).  `ph_val` is the
placeholder counter: the source initializes it to `0` and never increments
it, which this model reproduces faithfully (the recursive call passes
`ph_val` through unchanged).  On a name collision the distribution is renamed
to `"dist_<ph_val>"` and its boundary parameter names are re-derived; then the
dict entry is assigned.  Returns the registry together with the (renamed)
distribution list, which the engine keeps as `self.distributions`. -/
def construct_dict_go (ph_val : ℕ) (dict : List (String × ADRUniform)) :
    List ADRUniform → List (String × ADRUniform) × List ADRUniform
  | [] => (dict, [])
  | dist :: rest =>
    let dist :=
      if dict.any fun kv => kv.1 == dist.name then
        ADRUniform.update_boundary_names { dist with name := "dist_" ++ toString ph_val }
      else dist
    let r := construct_dict_go ph_val (dictInsert dict dist.name dist) rest
    (r.1, dist :: r.2)

/-- Source `ADR.construct_dict` (adr.py:351-361): `ph_val = 0`, empty dict. -/
def construct_dict (distributions : List ADRUniform) :
    List (String × ADRUniform) × List ADRUniform :=
  construct_dict_go 0 [] distributions

/-- Source class `ADR` (adr.py:337-385), restricted to registries of uniform
distributions — the only distribution variant whose constructor succeeds in
the source (see the C7 analysis).  In Python `parameters` aliases the
`ADRParam` objects owned by the distributions; here the engine's flattened
list is the authoritative state for `boundary_sample` and `update`, which
only touch `parameters` and `sample_idx`. -/
structure ADR where
  distribution_dict : List (String × ADRUniform)
  p_thresh : ℚ × ℚ
  parameters : List ADRParam
  sample_idx : Option ℕ
  distributions : List ADRUniform
  do_boundary_sample : Bool
deriving DecidableEq, Repr

/-- Source `ADR.__init__` (adr.py:339-349); the Python default for `p_thresh`
is `[0, 10]`.  `sample_idx` starts as `None` and `do_boundary_sample` as
`True`; `parameters` is the concatenation of every distribution's parameter
list in registration order. -/
def ADR.init (distributions : List ADRUniform) (p_thresh : ℚ × ℚ) : ADR :=
  let r := construct_dict distributions
  { distribution_dict := r.1
    p_thresh := p_thresh
    parameters := (r.2.map ADRUniform.get_parameters).flatten
    sample_idx := none
    distributions := r.2
    do_boundary_sample := true }

/-- Source `ADR.boundary_sample` (adr.py:370-380), with the draw
`u ∈ [0, 1)` underlying `np.random.choice(len(parameters), p=weights_norm)`
passed explicitly; the weighted choice is inverse-CDF selection over the
normalized weights, i.e. `pick` applied to `u * sum(weights)`.  The
subsequent `self.episode_sample()` call re-draws every distribution; those
returned draws are not modelled here (the claims under check concern the
selected index and the flag it sets), so the function returns the updated
engine state and the selected index. -/
def ADR.boundary_sample (a : ADR) (u : ℚ) : ADR × ℕ :=
  if a.do_boundary_sample then
    let sample_weights := a.parameters.map ADRParam.get_boundary_sample_weight
    let idx := pick sample_weights (u * sample_weights.sum)
    let params := a.parameters.mapIdx fun i q =>
      if i = idx then q.set_boundary_sample_flag true else q
    ({ a with parameters := params, sample_idx := some idx }, idx)
  else
    ({ a with sample_idx := some 0 }, 0)

/-- Source `ADR.update` (adr.py:382-385): default the index to `sample_idx`.
A `None` index makes the subscript `self.parameters[param_idx]` raise
TypeError and an out-of-range index raises IndexError; both failures are
modelled as `none` (no updated engine state exists).  Otherwise the indexed
parameter is updated with the engine's thresholds. -/
def ADR.update (a : ADR) (performance : ℚ) (param_idx : Option ℕ) : Option ADR :=
  let idx := match param_idx with
    | none => a.sample_idx
    | some i => some i
  match idx with
  | none => none
  | some i =>
    match a.parameters[i]? with
    | none => none
    | some p =>
      some { a with parameters := a.parameters.set i (p.update performance a.p_thresh) }

/-- C9: whenever boundary sampling is enabled, the flattened parameters all
have non-negative weight and at least one has strictly positive weight, the
index selected by `boundary_sample` carries a strictly positive
`boundary_sample_weight`, whatever the random draw `u ∈ [0, 1)` turns out to
be: a parameter with weight `0` is never pinned. -/
theorem boundary_sample_positive_weight (a : ADR) (u : ℚ)
    (hon : a.do_boundary_sample = true)
    (hnn : ∀ p ∈ a.parameters, 0 ≤ p.boundary_sample_weight)
    (hex : ∃ p ∈ a.parameters, 0 < p.boundary_sample_weight)
    (hu0 : 0 ≤ u) (hu1 : u < 1) :
    ∃ p, a.parameters[(a.boundary_sample u).2]? = some p
      ∧ 0 < p.boundary_sample_weight := by
  have hidx : (a.boundary_sample u).2
      = pick (a.parameters.map ADRParam.get_boundary_sample_weight)
          (u * (a.parameters.map ADRParam.get_boundary_sample_weight).sum) := by
    simp [ADR.boundary_sample, hon]
  have hsum : 0 < (a.parameters.map ADRParam.get_boundary_sample_weight).sum :=
    sum_map_pos _ _ hnn hex
  have h1 : u * (a.parameters.map ADRParam.get_boundary_sample_weight).sum
      < (a.parameters.map ADRParam.get_boundary_sample_weight).sum := by
    nlinarith
  rw [hidx]
  exact pick_map_pos ADRParam.get_boundary_sample_weight a.parameters _ hnn
    (mul_nonneg hu0 hsum.le) h1

/-- Uniform distribution with boundary weights `1` (lower) and `0` (upper). -/
def uW1 : ADRUniform :=
  ADRUniform.init (ADRParam.init 0 (none, none) 1 240 1 "")
    (ADRParam.init 1 (none, none) 1 240 0 "") "w1"

/-- Uniform distribution with boundary weights `3` (lower) and `0` (upper). -/
def uW2 : ADRUniform :=
  ADRUniform.init (ADRParam.init 0 (none, none) 1 240 3 "")
    (ADRParam.init 1 (none, none) 1 240 0 "") "w2"

/-- Engine state over `uW1` and `uW2`, as `ADR.__init__` produces it:
flattened weights `[1, 0, 3, 0]`, `sample_idx` unset, boundary sampling on. -/
def engW : ADR :=
  { distribution_dict := (construct_dict [uW1, uW2]).1
    p_thresh := (0, 10)
    parameters := uW1.get_parameters ++ uW2.get_parameters
    sample_idx := none
    distributions := (construct_dict [uW1, uW2]).2
    do_boundary_sample := true }

/-- Witness for C9 on `engW` with the draw `u = 1/2` (which selects the
weight-3 parameter at index 2). -/
theorem boundary_sample_positive_weight_w :
    ∃ p, engW.parameters[(engW.boundary_sample (1/2)).2]? = some p
      ∧ 0 < p.boundary_sample_weight :=
  boundary_sample_positive_weight engW (1/2) rfl
    (by simp [engW, uW1, uW2, ADRUniform.init, ADRUniform.update_boundary_names,
        ADRUniform.get_parameters, ADRParam.init])
    ⟨uW2.phi_l,
      by simp [engW, uW1, uW2, ADRUniform.init, ADRUniform.update_boundary_names,
        ADRUniform.get_parameters, ADRParam.init],
      by norm_num [uW2, ADRUniform.init, ADRUniform.update_boundary_names,
        ADRParam.init]⟩
    (by norm_num) (by norm_num)

/-- C10: right after engine construction, `sample_idx` is still `None`; a
call to `update` that omits `param_idx` therefore subscripts the parameter
list with `None`, which fails (TypeError) instead of updating any parameter:
no updated engine state is produced. -/
theorem update_before_boundary_sample_fails (distributions : List ADRUniform)
    (p_thresh : ℚ × ℚ) (performance : ℚ) :
    (ADR.init distributions p_thresh).sample_idx = none
      ∧ (ADR.init distributions p_thresh).update performance none = none :=
  ⟨rfl, rfl⟩

/-- First of three identically named distributions (phi_l value 1). -/
def jointA : ADRUniform :=
  ADRUniform.init (ADRParam.init 1 (none, none) 1 240 1 "")
    (ADRParam.init 2 (none, none) 1 240 1 "") "joint"

/-- Second of three identically named distributions (phi_l value 3). -/
def jointB : ADRUniform :=
  ADRUniform.init (ADRParam.init 3 (none, none) 1 240 1 "")
    (ADRParam.init 4 (none, none) 1 240 1 "") "joint"

/-- Third of three identically named distributions (phi_l value 5). -/
def jointC : ADRUniform :=
  ADRUniform.init (ADRParam.init 5 (none, none) 1 240 1 "")
    (ADRParam.init 6 (none, none) 1 240 1 "") "joint"

/-- C6 evaluated at the failing input: registering three distributions all
named "joint" yields a registry with only two keys.  Because `ph_val`
(adr.py:353) is initialized to `0` and never incremented, the second and the
third distribution are both renamed to `"dist_0"`, and the third silently
overwrites the second in the dict: the entry under `"dist_0"` is the third
distribution (`phi_l.value = 5`) and the second (`phi_l.value = 3`) is gone —
refuting "every supplied distribution under a distinct key" and "no registry
entry is silently overwritten" for three or more duplicates. -/
theorem construct_dict_three_joint_overwrites :
    ((construct_dict [jointA, jointB, jointC]).1.map Prod.fst = ["joint", "dist_0"])
      ∧ (construct_dict [jointA, jointB, jointC]).1.length = 2
      ∧ (∀ kv ∈ (construct_dict [jointA, jointB, jointC]).1,
          kv.1 = "dist_0" → kv.2.phi_l.value = 5)
      ∧ ∀ kv ∈ (construct_dict [jointA, jointB, jointC]).1,
          kv.2.phi_l.value ≠ 3 := by
  decide

/-- Model of a Python value that can appear as an operand of the `+` in the
compound distributions' `parameters` lines: either an actual parameter list
(the result of calling `get_parameters()`) or the bound method object itself
(what the expression denotes when the call parentheses are missing). -/
inductive PyVal where
  | list (ps : List ADRParam)
  | boundMethod
deriving DecidableEq, Repr

/-- Python `+` on such operands: list concatenation when both operands are
lists, TypeError otherwise (`list + method` is unsupported in Python). -/
def pyAdd : PyVal → PyVal → Except PyError PyVal
  | .list a, .list b => .ok (.list (a ++ b))
  | _, _ => .error .typeError

/-- Source `ADRAdditiveGaussian.__init__` (adr.py:218-224): after storing
`x_0`, `lam_i` and `lam_j`, line 223 evaluates the bare expression
`self.alpha` — but no `alpha` attribute has been assigned (neither there nor
in `ADRDist.__init__`), so the constructor raises AttributeError before the
`parameters` line even runs.  The result, on success, would have been the
exposed parameter list. -/
def ADRAdditiveGaussian.init (x_0 : ℚ) (lam_i lam_j : ADRUniform) (alpha : ℚ) :
    Except PyError (List ADRParam) :=
  .error .attributeError

/-- Source `ADRUnbiasedAdditiveGaussian.__init__` (adr.py:246-251): the one
compound constructor without a slip; its exposed parameter list is
`lam_i.get_parameters()` (called correctly, adr.py:251). -/
def ADRUnbiasedAdditiveGaussian.init (x_0 : ℚ) (lam_i : ADRUniform) (alpha : ℚ) :
    List ADRParam :=
  lam_i.get_parameters

/-- Source `ADRMultiplicative.__init__` (adr.py:269-275): stores `x_0`,
`lam_i`, `lam_j`, `alpha`, then evaluates
`self.lam_i.get_parameters() + self.lam_j.get_parameters` — the second
operand is missing its call parentheses (adr.py:275), so the `+` raises
TypeError (list + bound method) and construction always fails. -/
def ADRMultiplicative.init (x_0 : ℚ) (lam_i lam_j : ADRUniform) (alpha : ℚ) :
    Except PyError (List ADRParam) :=
  match pyAdd (.list lam_i.get_parameters) .boundMethod with
  | .ok (.list l) => .ok l
  | .ok .boundMethod => .error .typeError
  | .error e => .error e

/-- Source `ADRActionNoise.__init__` (adr.py:296-302): the `parameters` line
evaluates `self.lam_i.get_parameters() + self.lam_j.get_parameters +
self.lam_k.get_parameters` — the second and third operands are missing their
call parentheses (adr.py:302), so the left-associated first `+` already
raises TypeError (list + bound method) and construction always fails. -/
def ADRActionNoise.init (a_0 : ℚ) (lam_i lam_j lam_k : ADRUniform) :
    Except PyError (List ADRParam) :=
  match pyAdd (.list lam_i.get_parameters) .boundMethod with
  | .error e => .error e
  | .ok v =>
    match pyAdd v .boundMethod with
    | .ok (.list l) => .ok l
    | .ok .boundMethod => .error .typeError
    | .error e => .error e

/-- Source `ADRActionNoise.step_sample` (adr.py:309-334): the first statement
(line 310) reads the bare name `a_0` — the attribute is `self.a_0` and no
global `a_0` exists — so the call raises NameError before any sampling
happens.  (Even were the name bound, the `+ np.random.normal(...)` groups on
lines 318-325 and 326-333 are standalone unary-plus expression statements
whose values are discarded, so the second and third noise terms would not
contribute to `last_sample`.)  Arguments are the episode-scoped last samples
of `lam_i` and `lam_j` and the would-be Gaussian draws for the three terms. -/
def ADRActionNoise.step_sample (lam_i_last lam_j_last : Option ℚ)
    (draws : ℚ × ℚ × ℚ) : Except PyError ℚ :=
  .error .nameError

/-- Source `ADRActionNoise.episode_sample` (adr.py:304-307): episode-samples
`lam_i` and `lam_j` (uniform children, with their draws `u_i`, `u_j` passed
explicitly) and then returns `step_sample()`, which raises NameError. -/
def ADRActionNoise.episode_sample (lam_i lam_j : ADRUniform) (u_i u_j : ℚ)
    (draws : ℚ × ℚ × ℚ) : Except PyError ℚ :=
  let li := (lam_i.episode_sample u_i).1
  let lj := (lam_j.episode_sample u_j).1
  ADRActionNoise.step_sample li.last_sample lj.last_sample draws

/-- Concrete valid uniform child over `[0, 1]` for the compound-constructor
evaluations. -/
def uZeroOne : ADRUniform :=
  ADRUniform.init (ADRParam.init 0 (none, none) 1 240 1 "")
    (ADRParam.init 1 (none, none) 1 240 1 "") "noise"

/-- C7 evaluated at concrete valid children: AdditiveGaussian construction
raises AttributeError (unassigned `self.alpha` read at adr.py:223),
Multiplicative and ActionNoise construction raise TypeError (list + bound
method at adr.py:275 and adr.py:302) — so construction from valid children
does not "always succeed" and the flat concatenated parameter list is never
produced; only UnbiasedAdditiveGaussian builds its list, which does equal its
single child's parameter list. -/
theorem compound_construction_raises :
    ADRAdditiveGaussian.init 1 uZeroOne uZeroOne (1/100) = .error .attributeError
      ∧ ADRMultiplicative.init 1 uZeroOne uZeroOne (1/100) = .error .typeError
      ∧ ADRActionNoise.init 1 uZeroOne uZeroOne uZeroOne = .error .typeError
      ∧ ADRUnbiasedAdditiveGaussian.init 1 uZeroOne (1/100) = uZeroOne.get_parameters :=
  ⟨rfl, rfl, rfl, rfl⟩

/-- C8 evaluated at a concrete instance: an `ADRActionNoise` cannot even be
constructed (TypeError in `__init__`), and `step_sample` — the behaviour the
claim describes — raises NameError on the unbound name `a_0` instead of
returning `a_0 * N(1, g(|lam_i|)) + N(0, g(|lam_j|)) + N(0, g(|lam_k|))`;
`episode_sample`, which ends by calling `step_sample`, fails the same way. -/
theorem action_noise_raises :
    ADRActionNoise.init 1 uZeroOne uZeroOne uZeroOne = .error .typeError
      ∧ ADRActionNoise.episode_sample uZeroOne uZeroOne 0 1 (1, 1, 1)
          = .error .nameError
      ∧ ADRActionNoise.step_sample (some 0) (some 1) (1, 1, 1) = .error .nameError :=
  ⟨rfl, rfl, rfl⟩
